import Mathlib

/-!
Shallow embedding of the appointment-slot, order/stock and prescription logic of
the GNU Health REST middleware (FastAPI handlers over raw SQL), together with
proofs of the spec claims about it.

Conventions of the embedding:
* Database tables are Lean lists of structures; `fetchone` is `List.find?`
  (first row in list order), `fetchall` is `List.filter`, and SQL `UPDATE`
  statements are `List.map` guarded by the `WHERE` predicate.
* Timestamps are minutes since an epoch (`Nat`): a Python `datetime` at minute
  granularity corresponds to `day * 1440 + minuteOfDay`.  The `strftime`
  round-trips used by the code ("%Y-%m-%d %H:%M:%S" / "%Y-%m-%d %I:%M %p")
  are injective at minute granularity, so string equality of formatted
  timestamps is equality of these numbers.
* Handlers return an `Except HErr t` result paired with the post-request
  database state; an uncaught `HTTPException` leaves the database unchanged
  (no `commit` was executed, the session is discarded at request end).
* `duration = 0` makes the source while loops diverge; the fuel below is
  sufficient exactly when `0 < duration`, and every theorem about slot
  generation carries that hypothesis.
-/

namespace GnuHealth

/-- An HTTP error response: status code and detail tag. -/
structure HErr where
  code : Nat
  msg : String
  deriving DecidableEq, Repr

instance {ε α : Type} [DecidableEq ε] [DecidableEq α] :
    DecidableEq (Except ε α) := fun x y =>
  match x, y with
  | .ok a, .ok b =>
    if h : a = b then .isTrue (by rw [h]) else .isFalse (by simp [h])
  | .error a, .error b =>
    if h : a = b then .isTrue (by rw [h]) else .isFalse (by simp [h])
  | .ok _, .error _ => .isFalse (by simp)
  | .error _, .ok _ => .isFalse (by simp)

/-- Row of `party_party` (columns used by the handlers). -/
structure Party where
  id : Nat
  internal_user : Option Nat
  is_healthprof : Bool
  deriving DecidableEq, Repr

/-- Row of `gnuhealth_patient`: `name` is the party id. -/
structure Patient where
  id : Nat
  name : Nat
  deriving DecidableEq, Repr

/-- Row of `gnuhealth_healthprofessional`: `name` is the party id. -/
structure HealthProf where
  id : Nat
  name : Nat
  deriving DecidableEq, Repr

/-- Row of `gnuhealth_appointment` (columns used by the handlers). -/
structure Appointment where
  id : Nat
  appointment_date : Nat
  appointment_type : String
  healthprof : Nat
  patient : Option Nat
  state : String
  write_date : Option Nat
  write_uid : Option Nat
  deriving DecidableEq, Repr

/-- The slice of the database the appointment endpoints touch. -/
structure ApptDB where
  res_users : List Nat
  parties : List Party
  patients : List Patient
  healthprofs : List HealthProf
  appointments : List Appointment
  deriving DecidableEq, Repr

/-- `book_appointment_slot` (POST /book-slot,
`book_appointment_slot_confirmed.py`): resolve the caller to a party then a
patient, load the appointment `WHERE id = :id AND state = 'free'`, reject a
past timestamp, then set `patient`, `state = 'confirmed'` and the write audit
columns on every row with that id.  `now` is `datetime.now()` at request
time. -/
def book_appointment_slot (uid aid now : Nat) (db : ApptDB) :
    Except HErr Unit × ApptDB :=
  match db.parties.find? (fun p => p.internal_user == some uid) with
  | none => (.error ⟨400, "User is not linked to a party entity"⟩, db)
  | some party =>
    match db.patients.find? (fun q => q.name == party.id) with
    | none => (.error ⟨400, "User is not registered as a patient"⟩, db)
    | some patient =>
      match db.appointments.find? (fun a => a.id == aid && a.state == "free") with
      | none => (.error ⟨404, "Appointment slot not found or already booked"⟩, db)
      | some slot =>
        if slot.appointment_date < now then
          (.error ⟨400, "Cannot book an appointment in the past"⟩, db)
        else
          (.ok (), { db with appointments := db.appointments.map (fun a =>
            if a.id == aid then
              { a with patient := some patient.id, state := "confirmed",
                       write_date := some now, write_uid := some uid }
            else a) })

/-- `update_appointment` (PUT /appointments/{id}, `appointments.py`): resolve
the caller to a patient, load the appointment `WHERE id = :id AND patient =
:patient_id`, then `COALESCE`-update date and state keeping the patient
column untouched. -/
def update_appointment (uid aid : Nat) (new_date : Option Nat)
    (new_state : Option String) (now : Nat) (db : ApptDB) :
    Except HErr Unit × ApptDB :=
  match db.parties.find? (fun p => p.internal_user == some uid) with
  | none => (.error ⟨400, "User is not linked to a party entity"⟩, db)
  | some party =>
    match db.patients.find? (fun q => q.name == party.id) with
    | none => (.error ⟨403, "Only patients can update appointments"⟩, db)
    | some patient =>
      match db.appointments.find?
          (fun a => a.id == aid && a.patient == some patient.id) with
      | none => (.error ⟨404, "Appointment not found or unauthorized access"⟩, db)
      | some _ =>
        (.ok (), { db with appointments := db.appointments.map (fun a =>
          if a.id == aid then
            { a with appointment_date := new_date.getD a.appointment_date,
                     state := new_state.getD a.state,
                     write_date := some now }
          else a) })

/-- `request_appointment_cancellation` (POST /request-appointment-cancellation,
`patient_appointment_cancel_request.py`): resolve the caller to a patient,
load the appointment `WHERE id = :id AND patient = :patient_id`, require the
current state to be exactly "confirmed", then set `state = 'cancel request'`
and the write audit columns. -/
def request_appointment_cancellation (uid aid now : Nat) (db : ApptDB) :
    Except HErr Unit × ApptDB :=
  match db.parties.find? (fun p => p.internal_user == some uid) with
  | none => (.error ⟨400, "User is not linked to a party entity"⟩, db)
  | some party =>
    match db.patients.find? (fun q => q.name == party.id) with
    | none => (.error ⟨403, "Only patients can request appointment cancellation"⟩, db)
    | some patient =>
      match db.appointments.find?
          (fun a => a.id == aid && a.patient == some patient.id) with
      | none => (.error ⟨404, "Appointment not found or does not belong to this patient"⟩, db)
      | some appt =>
        if appt.state != "confirmed" then
          (.error ⟨400, "Only confirmed appointments can be requested for cancellation"⟩, db)
        else
          (.ok (), { db with appointments := db.appointments.map (fun a =>
            if a.id == aid then
              { a with state := "cancel request",
                       write_date := some now, write_uid := some uid }
            else a) })

/-- `slots_modify` (helper of POST /specific-slot-modification,
`available_slots_telem_phy.py`): load the target appointment, list every
appointment of the same professional, and if no listed slot already occupies
the requested date and time in state "booked" or "free" and the requested
datetime is in the future, move the target to that datetime with
`state = 'free'` (the patient column is left untouched).  The requested date
and time are given as `day` and `minuteOfDay`; the formatted-string
comparison of the source is equality of `day * 1440 + minuteOfDay` with the
stored minute timestamp.  Returns `false` when the source returns `False`
and on the unhandled-error path (missing row). -/
def slots_modify (aid day minuteOfDay now : Nat) (db : ApptDB) :
    Bool × ApptDB :=
  match db.appointments.find? (fun a => a.id == aid) with
  | none => (false, db)
  | some target =>
    let peers := db.appointments.filter (fun a => a.healthprof == target.healthprof)
    let requested := day * 1440 + minuteOfDay
    match peers.find? (fun a => a.appointment_date == requested) with
    | some m =>
      if m.state == "booked" || m.state == "free" then (false, db)
      else if requested ≤ now then (false, db)
      else
        (true, { db with appointments := db.appointments.map (fun a =>
          if a.id == aid then
            { a with appointment_date := requested, state := "free" }
          else a) })
    | none =>
      if requested ≤ now then (false, db)
      else
        (true, { db with appointments := db.appointments.map (fun a =>
          if a.id == aid then
            { a with appointment_date := requested, state := "free" }
          else a) })

/-- The inner while loop shared by both slot generators:
`while current < stop: emit current; current += duration`, with explicit fuel.
`stop - t` fuel is sufficient whenever `0 < dur` (for `dur = 0` the source
loop diverges). -/
def slotLoop : Nat → Nat → Nat → Nat → List Nat
  | 0, _, _, _ => []
  | fuel + 1, t, stop, dur =>
    if t < stop then t :: slotLoop fuel (t + dur) stop dur else []

/-- Enumerate slot start minutes from `t` (inclusive) to `stop` (exclusive)
at step `dur`. -/
def enumSlots (t stop dur : Nat) : List Nat :=
  slotLoop (stop - t) t stop dur

/-- One day of `generate_doctor_appointment_slots`
(`available_slots_telem_phy.py`): when the daily window does not span
midnight, enumerate from start to end time on day `d`; otherwise enumerate
from the start time to midnight, and, only when `d` is not the last day of
the range (`isLast = false`), continue from midnight of the next day to the
end time. -/
def genDoctorDaySlots (d startT endT dur : Nat) (isLast : Bool) : List Nat :=
  if startT < endT then
    enumSlots (d * 1440 + startT) (d * 1440 + endT) dur
  else
    enumSlots (d * 1440 + startT) ((d + 1) * 1440) dur ++
      (if !isLast then enumSlots ((d + 1) * 1440) ((d + 1) * 1440 + endT) dur
       else [])

/-- `generate_doctor_appointment_slots` (`available_slots_telem_phy.py`):
iterate `genDoctorDaySlots` over every calendar day from `startD` to `endD`
inclusive. -/
def generate_doctor_appointment_slots (startD endD startT endT dur : Nat) :
    List Nat :=
  (List.range (endD + 1 - startD)).flatMap fun i =>
    genDoctorDaySlots (startD + i) startT endT dur (startD + i == endD)

/-- `generate_appointment_slots` (`generate_slot.py`): same daily iteration,
but a day generates slots only when the window does not span midnight
(`if start_time < end_time`, no else branch). -/
def generate_appointment_slots (startD endD startT endT dur : Nat) :
    List Nat :=
  (List.range (endD + 1 - startD)).flatMap fun i =>
    if startT < endT then
      enumSlots ((startD + i) * 1440 + startT) ((startD + i) * 1440 + endT) dur
    else []

/-- Rows produced by the insert loop of `insert_appointments`
(`available_slots_telem_phy.py`): one row per slot, `state = 'free'`,
patient and audit columns NULL, serial ids from `nextId`. -/
def mkFreeRows (hp : Nat) (atype : String) : Nat → List Nat → List Appointment
  | _, [] => []
  | nextId, s :: rest =>
    { id := nextId
      appointment_date := s
      appointment_type := atype
      healthprof := hp
      patient := none
      state := "free"
      write_date := none
      write_uid := none } :: mkFreeRows hp atype (nextId + 1) rest

/-- `insert_appointments` (`available_slots_telem_phy.py`): insert one "free"
row per slot for the given professional and type. -/
def insert_appointments (hp : Nat) (atype : String) (slots : List Nat)
    (nextId : Nat) (db : ApptDB) : ApptDB :=
  { db with appointments := db.appointments ++ mkFreeRows hp atype nextId slots }

/-- `get_healthprof` (`available_slots_telem_phy.py`): the join
`res_user → party_party (internal_user) → gnuhealth_healthprofessional
(name = party id)`, first row. -/
def get_healthprof (uid : Nat) (db : ApptDB) : Option Nat :=
  match db.parties.find? (fun p => p.internal_user == some uid) with
  | none => none
  | some party =>
    match db.healthprofs.find? (fun h => h.name == party.id) with
    | none => none
    | some hp => some hp.id

/-- `get_slots` (POST /generate-slots, `available_slots_telem_phy.py`) —
the slot-generation endpoint that is live under the v1 prefix (the
`generate_slot.py` router registers the same path later and is shadowed).
Validates the request window against `now`, resolves the caller to a
verified health professional, generates the slots, drops every generated
timestamp already present among the formatted dates of the professional's
existing appointments, and inserts the remainder in state "free". -/
def get_slots (uid : Nat) (atype : String) (startD endD startT endT dur : Nat)
    (now nextId : Nat) (db : ApptDB) : Except HErr Unit × ApptDB :=
  let start_dt := startD * 1440 + startT
  let end_dt := endD * 1440 + endT
  if end_dt < start_dt then (.error ⟨400, "Invalid date time"⟩, db)
  else if start_dt < now || end_dt < now then
    (.error ⟨400, "Your time cannot be in the past"⟩, db)
  else if !(db.res_users.contains uid) then
    (.error ⟨400, "User Not Verified"⟩, db)
  else
    match db.parties.find? (fun p => p.internal_user == some uid) with
    | none => (.error ⟨400, "Not a Health Professional"⟩, db)
    | some party =>
      if party.is_healthprof then
        match db.healthprofs.find? (fun h => h.name == party.id) with
        | none =>
          (.error ⟨400, "Not present in the gnuhealth_healthprofessional Database"⟩, db)
        | some hp =>
          let new_slots := generate_doctor_appointment_slots startD endD startT endT dur
          let existing := (db.appointments.filter
            (fun a => a.healthprof == hp.id)).map (·.appointment_date)
          let unique_new := new_slots.filter (fun s => !(existing.contains s))
          if unique_new.isEmpty then (.ok (), db)
          else (.ok (), insert_appointments hp.id atype unique_new nextId db)
      else (.error ⟨400, "Not a Health Professional"⟩, db)

/-- Row of `ecom_orders` (columns used by the status endpoint). -/
structure Order where
  id : Nat
  status : String
  deriving DecidableEq, Repr

/-- Row of `ecom_order_items`. Quantities are compared against stock as
floats in the source; integer quantities embed them exactly. -/
structure OrderItem where
  order_id : Nat
  product_id : Nat
  quantity : Int
  deriving DecidableEq, Repr

/-- Row of `stock_lot`: `number` is nullable (`float(number or 0)` in the
source) and can be driven negative by the deduction arithmetic, hence
`Option Int`. -/
structure StockLot where
  id : Nat
  product : Nat
  number : Option Int
  write_date : Option Nat
  deriving DecidableEq, Repr

/-- The slice of the database the order-status endpoint touches. -/
structure OrderDB where
  orders : List Order
  order_items : List OrderItem
  stock_lots : List StockLot
  deriving DecidableEq, Repr

/-- `VALID_STATUSES` of `admin_orders.py`. -/
def VALID_STATUSES : List String :=
  ["pending", "processing", "ready_for_delivery", "completed", "cancelled"]

/-- The stock-check loop of `update_order_status` (`admin_orders.py`,
"Stock Check Before Update"): for each item in order, fetch the first
`stock_lot` row of its product; abort with the product id if the row is
missing or `float(number or 0) < quantity`.  Returns the first failing
product id, `none` when every item passes. -/
def checkStock (lots : List StockLot) : List OrderItem → Option Nat
  | [] => none
  | it :: rest =>
    match lots.find? (fun l => l.product == it.product_id) with
    | none => some it.product_id
    | some lot =>
      if (lot.number.getD 0) < it.quantity then some it.product_id
      else checkStock lots rest

/-- The deduction loop of `update_order_status` (`admin_orders.py`,
"Deduct Stock"): for each item, re-fetch the first `stock_lot` row of its
product from the current state and set
`number = float(number or 0) - quantity, write_date = NOW()` on every row
with that lot id.  A missing row raises (`.id` on `None`), which the outer
handler turns into a rollback — modelled as `none`. -/
def deductStock (now : Nat) (lots : List StockLot) :
    List OrderItem → Option (List StockLot)
  | [] => some lots
  | it :: rest =>
    match lots.find? (fun l => l.product == it.product_id) with
    | none => none
    | some lot =>
      deductStock now
        (lots.map (fun l =>
          if l.id == lot.id then
            { l with number := some ((lot.number.getD 0) - it.quantity),
                     write_date := some now }
          else l))
        rest

/-- `update_order_status` (PUT /orders/{id}/status, `admin_orders.py`).
Returns the result, the post-request database and the number of `commit`
calls executed (every path of the source commits at most once; error paths
commit nothing, and a raised exception discards all uncommitted writes). -/
def update_order_status (oid : Nat) (new_status : String) (now : Nat)
    (db : OrderDB) : Except HErr Unit × OrderDB × Nat :=
  if !(VALID_STATUSES.contains new_status) then
    (.error ⟨400, "Invalid status"⟩, db, 0)
  else
    match db.orders.find? (fun o => o.id == oid) with
    | none => (.error ⟨404, "Order not found"⟩, db, 0)
    | some o =>
      if o.status == "completed" then
        (.error ⟨400, "Cannot change status. Order is already completed."⟩, db, 0)
      else
        let items := db.order_items.filter (fun it => it.order_id == oid)
        if new_status == "completed" then
          match checkStock db.stock_lots items with
          | some _ => (.error ⟨400, "Insufficient stock"⟩, db, 0)
          | none =>
            let db1 := { db with orders := db.orders.map (fun x : Order =>
              if x.id == oid then { x with status := new_status } else x) }
            match deductStock now db1.stock_lots items with
            | none => (.error ⟨500, "Error updating order status"⟩, db, 0)
            | some lots1 => (.ok (), { db1 with stock_lots := lots1 }, 1)
        else
          (.ok (), { db with orders := db.orders.map (fun x =>
            if x.id == oid then { x with status := new_status } else x) }, 1)

/-- Row of `gnuhealth_prescription_order` (columns the save endpoint
touches). -/
structure PrescriptionOrder where
  id : Nat
  appointment_id : Nat
  appointment_name : String
  prescription_id : String
  patient : Option Nat
  healthprof : Nat
  user_id : Nat
  notes : Option String
  create_date : Option Nat
  create_uid : Nat
  prescription_date : Option Nat
  write_date : Option Nat
  write_uid : Nat
  deriving DecidableEq, Repr

/-- Row of `gnuhealth_prescription_line`: `name` is the prescription order
id. -/
structure PrescriptionLine where
  id : Nat
  name : Nat
  medicament : Nat
  deriving DecidableEq, Repr

/-- Row of `gnuhealth_patient_lab_test`: `prescription` is the prescription
order id, `name` the test type id, and the criteria are a comma-joined id
string. -/
structure PatientLabTest where
  id : Nat
  prescription : Nat
  name : Nat
  test_critearea_id : Option String
  deriving DecidableEq, Repr

/-- Row of `gnuhealth_lab_test_type`: `name` is nullable because the insert
copies a possibly missing payload key. -/
structure LabTestType where
  id : Nat
  name : Option String
  code : String
  deriving DecidableEq, Repr

/-- Row of `gnuhealth_lab_test_critearea`. -/
structure LabTestCritearea where
  id : Nat
  name : String
  deriving DecidableEq, Repr

/-- Row of `gnuhealth_medicament`: `name` is the party id of the medicine. -/
structure Medicament where
  id : Nat
  name : Nat
  active_component : String
  deriving DecidableEq, Repr

/-- Row of `party_party` as created for a new medicine (name and code
columns). -/
structure MedParty where
  id : Nat
  name : String
  code : String
  deriving DecidableEq, Repr

/-- Row of `gnuhealth_patient_evaluation` (columns the diagnosis branch
touches). -/
structure PatientEvaluation where
  id : Nat
  appointment : Nat
  chief_complaint : Option String
  systolic : Option String
  diastolic : Option String
  glycemia : Option String
  weight : Option String
  height : Option String
  deriving DecidableEq, Repr

/-- The `Diagnosis` dict of the request body. `blood_pressure` defaults to
the empty string (`get('blood_pressure', '')`). -/
structure DiagPayload where
  complain : Option String
  blood_pressure : String
  sugar_level : Option String
  weight : Option String
  height : Option String
  deriving DecidableEq, Repr

/-- One value of the `med_tests` dict: a test name and its criteria names. -/
structure TestEntry where
  name : Option String
  test_critearea : List String
  deriving DecidableEq, Repr

/-- The `PrescriptionUpdate` request body.  `none` is an omitted key
(`is not None` fails); `some []` is a present-but-empty dict.  `medicine`
holds the dict values; `remarks` holds the dict (outer `Option`) and its
`text` key (inner `Option`). -/
structure PrescriptionUpdate where
  Diagnosis : Option DiagPayload
  med_tests : Option (List TestEntry)
  medicine : Option (List String)
  remarks : Option (Option String)
  deriving DecidableEq, Repr

/-- The slice of the database the prescription-save endpoint touches. -/
structure PrescDB where
  parties : List Party
  healthprofs : List HealthProf
  appointments : List Appointment
  prescription_orders : List PrescriptionOrder
  prescription_lines : List PrescriptionLine
  patient_lab_tests : List PatientLabTest
  lab_test_types : List LabTestType
  lab_test_criteareas : List LabTestCritearea
  medicaments : List Medicament
  med_parties : List MedParty
  patient_evaluations : List PatientEvaluation
  deriving DecidableEq, Repr

/-- Criteria id string of `save_prescription`: look up each criteria name,
keep truthy ids (`if crit_result and crit_result.id` — id 0 is falsy),
join with commas, NULL when empty. -/
def critIdString (crits : List LabTestCritearea) (names : List String) :
    Option String :=
  let ids := names.foldr (fun nm acc =>
    match crits.find? (fun c => c.name == nm) with
    | some c => if c.id ≠ 0 then toString c.id :: acc else acc
    | none => acc) []
  if ids.isEmpty then none else some (String.intercalate "," ids)

/-- The test-insert loop of `save_prescription`: for each payload entry,
find the test type by name (an absent name matches nothing, as SQL
`name = NULL`), create it with a generated code when missing (the uuid
suffix is modelled by the fresh-id counter), then insert the patient lab
test row. -/
def saveTests (rid : Nat) (crits : List LabTestCritearea)
    (entries : List TestEntry)
    (acc : List LabTestType × List PatientLabTest × Nat) :
    List LabTestType × List PatientLabTest × Nat :=
  entries.foldl (fun (acc : List LabTestType × List PatientLabTest × Nat) entry =>
    let types := acc.1
    let tests := acc.2.1
    let fresh := acc.2.2
    let found : Option LabTestType :=
      match entry.name with
      | none => none
      | some nm => types.find? (fun t => t.name == some nm)
    match found with
    | some ty =>
      (types,
       tests ++ [⟨fresh, rid, ty.id, critIdString crits entry.test_critearea⟩],
       fresh + 1)
    | none =>
      let ty : LabTestType := ⟨fresh, entry.name, "TEST_" ++ toString fresh⟩
      (types ++ [ty],
       tests ++ [⟨fresh + 1, rid, ty.id, critIdString crits entry.test_critearea⟩],
       fresh + 2)) acc

/-- The medicine-insert loop of `save_prescription`: for each (deduplicated)
medicine name, find the medicament by active component, create a party row
and a medicament row when missing (the uuid suffix of the party code is
modelled by the fresh-id counter), then insert the prescription line. -/
def saveMeds (rid : Nat) (names : List String)
    (acc : List MedParty × List Medicament × List PrescriptionLine × Nat) :
    List MedParty × List Medicament × List PrescriptionLine × Nat :=
  names.foldl
    (fun (acc : List MedParty × List Medicament × List PrescriptionLine × Nat) nm =>
    let ps := acc.1
    let meds := acc.2.1
    let lines := acc.2.2.1
    let fresh := acc.2.2.2
    match meds.find? (fun m => m.active_component == nm) with
    | some m => (ps, meds, lines ++ [⟨fresh, rid, m.id⟩], fresh + 1)
    | none =>
      let p : MedParty := ⟨fresh, nm, "MED_" ++ toString fresh⟩
      let m : Medicament := ⟨fresh + 1, p.id, nm⟩
      (ps ++ [p], meds ++ [m], lines ++ [⟨fresh + 2, rid, m.id⟩], fresh + 3)) acc

/-- The diagnosis branch of `save_prescription` (taken when the `Diagnosis`
dict is present and non-empty): split blood pressure on "/", then insert or
update the evaluation row of the appointment. -/
def applyDiagnosis (aid : Nat) (d : DiagPayload) (fresh : Nat) (db : PrescDB) :
    PrescDB × Nat :=
  let parts := d.blood_pressure.splitOn "/"
  let systolic := parts.head?
  let diastolic := parts[1]?
  match db.patient_evaluations.find? (fun e => e.appointment == aid) with
  | none =>
    ({ db with patient_evaluations := db.patient_evaluations ++
        [⟨fresh, aid, d.complain, systolic, diastolic,
          d.sugar_level, d.weight, d.height⟩] },
     fresh + 1)
  | some _ =>
    ({ db with patient_evaluations := db.patient_evaluations.map (fun e =>
        if e.appointment == aid then
          { e with chief_complaint := d.complain, systolic := systolic,
                   diastolic := diastolic, glycemia := d.sugar_level,
                   weight := d.weight, height := d.height }
        else e) },
     fresh)

/-- The tests-and-medicines section of `save_prescription` (entered when
either key is present).  Tests: delete every lab test of the prescription,
then insert the payload entries.  Medicines: delete the prescription lines
whose medicament differs from the "Default Medicine" subquery result — when
that subquery yields no row the comparison is `!= NULL` and nothing is
deleted, and when it yields several rows the statement raises (`none`,
rolled back by the caller) — then insert the deduplicated payload names
(Python builds them through `set`, modelled as first-occurrence
deduplication). -/
def applyTestsMeds (rid fresh : Nat) (med_tests : Option (List TestEntry))
    (medicine : Option (List String)) (db : PrescDB) :
    Option (PrescDB × Nat) :=
  if med_tests.isNone && medicine.isNone then some (db, fresh)
  else
    let afterTests : PrescDB × Nat :=
      match med_tests with
      | none => (db, fresh)
      | some entries =>
        let db1 := { db with patient_lab_tests :=
          db.patient_lab_tests.filter (fun t => !(t.prescription == rid)) }
        if entries.isEmpty then (db1, fresh)
        else
          let r := saveTests rid db1.lab_test_criteareas entries
            (db1.lab_test_types, db1.patient_lab_tests, fresh)
          ({ db1 with lab_test_types := r.1, patient_lab_tests := r.2.1 }, r.2.2)
    let db2 := afterTests.1
    let fresh2 := afterTests.2
    match medicine with
    | none => some (db2, fresh2)
    | some names =>
      let insertMeds : PrescDB → Option (PrescDB × Nat) := fun dbx =>
        if names.isEmpty then some (dbx, fresh2)
        else
          match saveMeds rid names.eraseDups
              (dbx.med_parties, dbx.medicaments, dbx.prescription_lines, fresh2) with
          | (ps, meds, lines, fr) =>
            some ({ dbx with med_parties := ps, medicaments := meds,
                             prescription_lines := lines }, fr)
      match db2.medicaments.filter
          (fun m => m.active_component == "Default Medicine") with
      | [] => insertMeds db2
      | [d] => insertMeds { db2 with prescription_lines :=
          db2.prescription_lines.filter (fun l =>
            !(l.name == rid && l.medicament != d.id)) }
      | _ :: _ :: _ => none

/-- Tail of `save_prescription` after the prescription order upsert:
diagnosis branch, tests-and-medicines section (rolling back to the
pre-request state `db0` when it raises), remarks branch, then the single
commit. -/
def save_prescription_body (aid rid fresh : Nat) (body : PrescriptionUpdate)
    (db db0 : PrescDB) : Except HErr Unit × PrescDB :=
  let dr : PrescDB × Nat :=
    match body.Diagnosis with
    | none => (db, fresh)
    | some d => applyDiagnosis aid d fresh db
  match applyTestsMeds rid dr.2 body.med_tests body.medicine dr.1 with
  | none => (.error ⟨500, "Error updating tests and medicines"⟩, db0)
  | some (db2, _) =>
    let db3 :=
      match body.remarks with
      | none => db2
      | some txt => { db2 with prescription_orders :=
          db2.prescription_orders.map (fun o =>
            if o.appointment_id == aid then { o with notes := txt } else o) }
    (.ok (), db3)

/-- `save_prescription` (POST /prescription-save/{appointment_id},
`prescription_save.py`, the version wired in `main.py`).  Gates: the
appointment exists, the caller is its assigned professional, and the state
is "confirmed".  Creates or refreshes the prescription order, applies the
diagnosis branch, then — when either payload key is present — deletes all
lab tests of the prescription and re-inserts the payload ones, and deletes
the prescription lines *except* those whose medicament is the subquery
result for active component "Default Medicine" (no row: SQL `!= NULL`
deletes nothing; several rows: the subquery raises and everything rolls
back), re-inserting the payload ones; finally the remarks branch, then one
commit.  `year` feeds the generated "PRES year/id" strings, `fresh` the
serial ids and uuid-derived codes. -/
def save_prescription (aid uid year now fresh : Nat)
    (body : PrescriptionUpdate) (db : PrescDB) :
    Except HErr Unit × PrescDB :=
  match db.appointments.find? (fun a => a.id == aid) with
  | none => (.error ⟨404, "Appointment not found"⟩, db)
  | some appt =>
    match db.healthprofs.find? (fun h => h.id == appt.healthprof) with
    | none => (.error ⟨404, "Health professional details not found"⟩, db)
    | some hprof =>
      match db.parties.find? (fun p => p.id == hprof.name) with
      | none => (.error ⟨404, "Health professional details not found"⟩, db)
      | some hparty =>
        if hparty.internal_user != some uid then
          (.error ⟨403, "You are not authorized to modify this appointment"⟩, db)
        else if appt.state != "confirmed" then
          (.error ⟨400, "Appointment has not been booked"⟩, db)
        else
          let presc_id := "PRES " ++ toString year ++ "/" ++ toString aid
          let appt_name := "APP " ++ toString year ++ "/" ++ toString aid
          match db.prescription_orders.find? (fun o => o.appointment_id == aid) with
          | none =>
            let order : PrescriptionOrder :=
              { id := fresh, appointment_id := aid, appointment_name := appt_name
                prescription_id := presc_id, patient := appt.patient
                healthprof := appt.healthprof, user_id := appt.healthprof
                notes := none, create_date := some now
                create_uid := appt.healthprof, prescription_date := some now
                write_date := some now, write_uid := appt.healthprof }
            save_prescription_body aid order.id (fresh + 1) body
              { db with prescription_orders := db.prescription_orders ++ [order] }
              db
          | some order =>
            let db1 := { db with prescription_orders :=
              db.prescription_orders.map (fun o =>
                if o.appointment_id == aid then
                  { o with appointment_name := appt_name,
                           prescription_id := presc_id,
                           write_date := some now,
                           write_uid := appt.healthprof }
                else o) }
            save_prescription_body aid order.id fresh body db1 db

/-! ## Theorems -/

/-- C1: a free appointment with a future timestamp is booked in place by a
patient caller (patient assigned, state becomes "confirmed"), and any second
book-slot request against the same id by a patient caller is then rejected
with the 404 "not found or already booked" error, leaving the database
unchanged. -/
theorem C1_book_free_slot_then_rebook_rejected
    (db : ApptDB) (uid aid now now₂ : Nat)
    (p : Party) (q : Patient) (slot : Appointment)
    (hp : db.parties.find? (fun x => x.internal_user == some uid) = some p)
    (hq : db.patients.find? (fun x => x.name == p.id) = some q)
    (hs : db.appointments.find? (fun a => a.id == aid && a.state == "free")
            = some slot)
    (hf : now ≤ slot.appointment_date) :
    (book_appointment_slot uid aid now db).1 = .ok () ∧
    (book_appointment_slot uid aid now db).2.appointments =
      db.appointments.map (fun a =>
        if a.id == aid then
          { a with patient := some q.id, state := "confirmed",
                   write_date := some now, write_uid := some uid }
        else a) ∧
    (∀ uid₂ p₂ q₂,
      db.parties.find? (fun x => x.internal_user == some uid₂) = some p₂ →
      db.patients.find? (fun x => x.name == p₂.id) = some q₂ →
      book_appointment_slot uid₂ aid now₂ (book_appointment_slot uid aid now db).2 =
        (.error ⟨404, "Appointment slot not found or already booked"⟩,
         (book_appointment_slot uid aid now db).2)) := by
  have hlt : ¬ slot.appointment_date < now := Nat.not_lt.mpr hf
  have hbook : book_appointment_slot uid aid now db =
      (.ok (), { db with appointments := db.appointments.map (fun a =>
        if a.id == aid then
          { a with patient := some q.id, state := "confirmed",
                   write_date := some now, write_uid := some uid }
        else a) }) := by
    simp [book_appointment_slot, hp, hq, hs, hlt]
  refine ⟨by rw [hbook], by rw [hbook], ?_⟩
  intro uid₂ p₂ q₂ hp₂ hq₂
  rw [hbook]
  have hnone : (db.appointments.map (fun a =>
      if a.id == aid then
        { a with patient := some q.id, state := "confirmed",
                 write_date := some now, write_uid := some uid }
      else a)).find? (fun a => a.id == aid && a.state == "free") = none := by
    rw [List.find?_eq_none]
    intro x hx
    rw [List.mem_map] at hx
    obtain ⟨a, _, rfl⟩ := hx
    by_cases h : a.id == aid
    · simp [h]
    · simp [h]
  simp only [book_appointment_slot, hp₂, hq₂, hnone]

/-- Concrete database for the C1 witness: patient callers 10 and 11, one
free appointment (id 5) at minute 100. -/
def dbC1 : ApptDB :=
  { res_users := [10, 11]
    parties := [⟨1, some 10, false⟩, ⟨3, some 11, false⟩]
    patients := [⟨2, 1⟩, ⟨4, 3⟩]
    healthprofs := []
    appointments := [⟨5, 100, "telemedicine", 7, none, "free", none, none⟩] }

theorem C1_witness :
    book_appointment_slot 11 5 60 (book_appointment_slot 10 5 50 dbC1).2 =
      (.error ⟨404, "Appointment slot not found or already booked"⟩,
       (book_appointment_slot 10 5 50 dbC1).2) :=
  (C1_book_free_slot_then_rebook_rejected dbC1 10 5 50 60
    ⟨1, some 10, false⟩ ⟨2, 1⟩ ⟨5, 100, "telemedicine", 7, none, "free", none, none⟩
    (by decide) (by decide) (by decide) (by decide)).2.2
    11 ⟨3, some 11, false⟩ ⟨4, 3⟩ (by decide) (by decide)

/-- C7: a single-day request with window 09:00–11:00 (minutes 540–660) and
duration 30 produces exactly the four start times 09:00, 09:30, 10:00,
10:30 of that day, in both slot generators. -/
theorem C7_single_day_window_four_slots :
    generate_appointment_slots 0 0 540 660 30 = [540, 570, 600, 630] ∧
    generate_doctor_appointment_slots 0 0 540 660 30 = [540, 570, 600, 630] := by
  exact ⟨rfl, rfl⟩

/-- C10: once an order is "completed", every further status-update request —
whatever the requested status — is rejected with a 400 error before any
write: the returned state is the input state and zero commits happen, so
stock can never be deducted twice through this endpoint. -/
theorem C10_completed_order_is_frozen
    (db : OrderDB) (oid : Nat) (o : Order)
    (ho : db.orders.find? (fun x => x.id == oid) = some o)
    (hc : o.status = "completed") :
    ∀ new_status now, ∃ e : HErr,
      update_order_status oid new_status now db = (.error e, db, 0) ∧
      e.code = 400 := by
  intro s now
  by_cases h : s ∈ VALID_STATUSES
  · exact ⟨⟨400, "Cannot change status. Order is already completed."⟩,
      by simp [update_order_status, h, ho, hc], rfl⟩
  · exact ⟨⟨400, "Invalid status"⟩, by simp [update_order_status, h], rfl⟩

/-- Concrete database for the C10 witness: one completed order. -/
def dbC10 : OrderDB :=
  { orders := [⟨1, "completed"⟩]
    order_items := [⟨1, 4, 2⟩]
    stock_lots := [⟨8, 4, some 10, none⟩] }

theorem C10_witness :
    ∃ e : HErr,
      update_order_status 1 "completed" 77 dbC10 = (.error e, dbC10, 0) ∧
      e.code = 400 :=
  C10_completed_order_is_frozen dbC10 1 ⟨1, "completed"⟩ (by decide) (by decide)
    "completed" 77

/-- Concrete database for the C9 counterexample and witness: caller 10 is
patient 2 and owns appointment 5. -/
def dbC9 (st : String) : ApptDB :=
  { res_users := [10]
    parties := [⟨1, some 10, false⟩]
    patients := [⟨2, 1⟩]
    healthprofs := []
    appointments := [⟨5, 100, "telemedicine", 7, some 2, st, none, none⟩] }

/-- C9 counterexample: an appointment owned by the caller in state "booked"
is NOT moved to "cancel request" — the handler rejects it with a 400 error
and leaves the database unchanged, so the transition is additionally gated
on the current state being "confirmed", contrary to the claim. -/
theorem C9_counterexample :
    request_appointment_cancellation 10 5 50 (dbC9 "booked") =
      (.error ⟨400, "Only confirmed appointments can be requested for cancellation"⟩,
       dbC9 "booked") := by
  decide

/-- C9 (amended): for an appointment owned by the calling patient, the
cancel-request operation sets its state to "cancel request" exactly when the
current state is "confirmed"; any other current state is rejected with a 400
error and the database is left unchanged. -/
theorem C9_amended_cancel_request_gated_on_confirmed
    (db : ApptDB) (uid aid now : Nat)
    (p : Party) (q : Patient) (appt : Appointment)
    (hp : db.parties.find? (fun x => x.internal_user == some uid) = some p)
    (hq : db.patients.find? (fun x => x.name == p.id) = some q)
    (ha : db.appointments.find? (fun a => a.id == aid && a.patient == some q.id)
            = some appt) :
    (appt.state = "confirmed" →
      request_appointment_cancellation uid aid now db =
        (.ok (), { db with appointments := db.appointments.map (fun a =>
          if a.id == aid then
            { a with state := "cancel request",
                     write_date := some now, write_uid := some uid }
          else a) })) ∧
    (appt.state ≠ "confirmed" →
      request_appointment_cancellation uid aid now db =
        (.error ⟨400, "Only confirmed appointments can be requested for cancellation"⟩,
         db)) := by
  constructor
  · intro hst
    have : (appt.state != "confirmed") = false := by simp [hst]
    simp [request_appointment_cancellation, hp, hq, ha, this]
  · intro hst
    have : (appt.state != "confirmed") = true := by simpa using hst
    simp [request_appointment_cancellation, hp, hq, ha, this]

theorem C9_witness :
    request_appointment_cancellation 10 5 50 (dbC9 "confirmed") =
      (.ok (), { dbC9 "confirmed" with appointments :=
        (dbC9 "confirmed").appointments.map (fun a =>
          if a.id == 5 then
            { a with state := "cancel request",
                     write_date := some 50, write_uid := some 10 }
          else a) }) :=
  (C9_amended_cancel_request_gated_on_confirmed (dbC9 "confirmed") 10 5 50
    ⟨1, some 10, false⟩ ⟨2, 1⟩ ⟨5, 100, "telemedicine", 7, some 2, "confirmed", none, none⟩
    (by decide) (by decide) (by decide)).1 (by decide)

/-- The state invariant of the spec: a "free" appointment has no patient,
a "booked" or "confirmed" appointment has a patient. -/
def stateOK (a : Appointment) : Prop :=
  (a.state = "free" → a.patient = none) ∧
  ((a.state = "booked" ∨ a.state = "confirmed") → a.patient ≠ none)

instance (a : Appointment) : Decidable (stateOK a) := by
  unfold stateOK; infer_instance

/-- Concrete database for the C4 counterexample: caller 10 is patient 2 and
owns the "confirmed" (respectively "booked") appointment 5 of professional
7; all rows satisfy the invariant. -/
def dbC4 (st : String) : ApptDB :=
  { res_users := [10]
    parties := [⟨1, some 10, false⟩]
    patients := [⟨2, 1⟩]
    healthprofs := [⟨7, 1⟩]
    appointments := [⟨5, 100, "telemedicine", 7, some 2, st, none, none⟩] }

/-- C4 counterexample: starting from databases whose rows all satisfy the
invariant, both the generic appointment update (requesting state "free")
and the slot-modification operation (rescheduling a booked slot) produce an
appointment in state "free" that still has a patient assigned — so not
every appointment-mutating operation preserves the invariant. -/
theorem C4_counterexample :
    (∀ a ∈ (dbC4 "confirmed").appointments, stateOK a) ∧
    (∃ a ∈ (update_appointment 10 5 none (some "free") 99 (dbC4 "confirmed")).2.appointments,
      ¬ stateOK a) ∧
    (∀ a ∈ (dbC4 "booked").appointments, stateOK a) ∧
    (∃ a ∈ (slots_modify 5 2 0 0 (dbC4 "booked")).2.appointments, ¬ stateOK a) := by
  decide

/-- C4 (amended): the booking operation preserves the state invariant (every
row it writes gets state "confirmed" together with a non-null patient), but
the generic appointment update and the slot-modification operation do not
preserve it. -/
theorem C4_amended_booking_preserves_invariant
    (db : ApptDB) (uid aid now : Nat)
    (hinv : ∀ a ∈ db.appointments, stateOK a) :
    ∀ a ∈ (book_appointment_slot uid aid now db).2.appointments, stateOK a := by
  intro a ha
  unfold book_appointment_slot at ha
  split at ha
  · exact hinv a ha
  · split at ha
    · exact hinv a ha
    · split at ha
      · exact hinv a ha
      · split at ha
        · exact hinv a ha
        · simp only [List.mem_map] at ha
          obtain ⟨b, hb, rfl⟩ := ha
          by_cases h : b.id == aid
          · simp only [h, if_true]
            constructor
            · intro hfree
              simp at hfree
            · intro _
              simp
          · simp only [h, if_false]
            exact hinv b hb

theorem C4_witness :
    stateOK ⟨5, 100, "telemedicine", 7, some 2, "confirmed", some 50, some 10⟩ :=
  C4_amended_booking_preserves_invariant dbC1 10 5 50 (by decide)
    ⟨5, 100, "telemedicine", 7, some 2, "confirmed", some 50, some 10⟩ (by decide)

/-- If some order line fails the availability check (missing stock row or
available quantity below the required one), the check loop aborts with a
product id. -/
lemma checkStock_isSome (lots : List StockLot) (items : List OrderItem)
    (h : ∃ it ∈ items,
      lots.find? (fun l => l.product == it.product_id) = none ∨
      ∃ lot, lots.find? (fun l => l.product == it.product_id) = some lot ∧
        lot.number.getD 0 < it.quantity) :
    ∃ pid, checkStock lots items = some pid := by
  induction items with
  | nil => simp at h
  | cons it rest ih =>
    obtain ⟨x, hx, hfail⟩ := h
    rcases List.mem_cons.mp hx with rfl | hxr
    · rcases hfail with hnone | ⟨lot, hlot, hlt⟩
      · exact ⟨x.product_id, by simp [checkStock, hnone]⟩
      · exact ⟨x.product_id, by simp [checkStock, hlot, hlt]⟩
    · cases hfind : lots.find? (fun l => l.product == it.product_id) with
      | none => exact ⟨it.product_id, by simp [checkStock, hfind]⟩
      | some lot =>
        by_cases hlt : lot.number.getD 0 < it.quantity
        · exact ⟨it.product_id, by simp [checkStock, hfind, hlt]⟩
        · obtain ⟨pid, hpid⟩ := ih ⟨x, hxr, hfail⟩
          exact ⟨pid, by simp [checkStock, hfind, hlt, hpid]⟩

/-- C2: completing an order in which some line requires more than the
available `stock_lot.number` (or has no stock row) is rejected with a 400
error; the returned state is the input state and no commit happens, so the
order status and every stock row are unchanged. -/
theorem C2_insufficient_stock_rejects_whole_transition
    (db : OrderDB) (oid now : Nat) (o : Order)
    (ho : db.orders.find? (fun x => x.id == oid) = some o)
    (hnc : o.status ≠ "completed")
    (hfail : ∃ it ∈ db.order_items.filter (fun it => it.order_id == oid),
      db.stock_lots.find? (fun l => l.product == it.product_id) = none ∨
      ∃ lot, db.stock_lots.find? (fun l => l.product == it.product_id) = some lot ∧
        lot.number.getD 0 < it.quantity) :
    update_order_status oid "completed" now db =
      (.error ⟨400, "Insufficient stock"⟩, db, 0) := by
  obtain ⟨pid, hsome⟩ := checkStock_isSome _ _ hfail
  have hval : "completed" ∈ VALID_STATUSES := by decide
  simp [update_order_status, ho, hnc, hsome, hval]

/-- Concrete database for the C2 witness: order 1 is pending, its single
line needs 5 units of product 4, the stock lot holds 3. -/
def dbC2 : OrderDB :=
  { orders := [⟨1, "pending"⟩]
    order_items := [⟨1, 4, 5⟩]
    stock_lots := [⟨8, 4, some 3, none⟩] }

theorem C2_witness :
    update_order_status 1 "completed" 7 dbC2 =
      (.error ⟨400, "Insufficient stock"⟩, dbC2, 0) :=
  C2_insufficient_stock_rejects_whole_transition dbC2 1 7 ⟨1, "pending"⟩
    (by decide) (by decide)
    ⟨⟨1, 4, 5⟩, by decide,
     Or.inr ⟨⟨8, 4, some 3, none⟩, by decide, by decide⟩⟩

/-- Every slot passed to the insert loop yields a row with that date, state
"free", the given professional and no patient. -/
lemma mkFreeRows_exists_row (hp : Nat) (atype : String) :
    ∀ (slots : List Nat) (n s : Nat), s ∈ slots →
      ∃ a ∈ mkFreeRows hp atype n slots,
        a.appointment_date = s ∧ a.state = "free" ∧ a.healthprof = hp ∧
        a.patient = none := by
  intro slots
  induction slots with
  | nil => intro n s hs; simp at hs
  | cons t rest ih =>
    intro n s hs
    rcases List.mem_cons.mp hs with rfl | hr
    · exact ⟨_, List.mem_cons_self _ _, rfl, rfl, rfl, rfl⟩
    · obtain ⟨a, ha, hprops⟩ := ih (n + 1) s hr
      exact ⟨a, List.mem_cons_of_mem _ ha, hprops⟩

/-- Conversely every row produced by the insert loop carries one of the
passed slots as its date. -/
lemma mkFreeRows_date_mem (hp : Nat) (atype : String) :
    ∀ (slots : List Nat) (n : Nat) (a : Appointment),
      a ∈ mkFreeRows hp atype n slots → a.appointment_date ∈ slots := by
  intro slots
  induction slots with
  | nil => intro n a ha; simp [mkFreeRows] at ha
  | cons t rest ih =>
    intro n a ha
    rcases List.mem_cons.mp ha with rfl | hr
    · exact List.mem_cons_self _ _
    · exact List.mem_cons_of_mem _ (ih (n + 1) a hr)

/-- C6: on the live slot-generation endpoint, every generated timestamp not
already among the professional's existing appointment dates is inserted as
a new "free" row for that professional with no patient, and every generated
timestamp already present is not inserted: the rows carrying that date are
exactly the ones that were there before. -/
theorem C6_generated_slots_inserted_without_duplicates
    (db : ApptDB) (uid : Nat) (atype : String)
    (startD endD startT endT dur now nextId : Nat)
    (p : Party) (h : HealthProf)
    (hval1 : startD * 1440 + startT ≤ endD * 1440 + endT)
    (hval2 : now ≤ startD * 1440 + startT)
    (hval3 : now ≤ endD * 1440 + endT)
    (hreg : uid ∈ db.res_users)
    (hp : db.parties.find? (fun x => x.internal_user == some uid) = some p)
    (hhp : p.is_healthprof = true)
    (hd : db.healthprofs.find? (fun x => x.name == p.id) = some h) :
    (get_slots uid atype startD endD startT endT dur now nextId db).1 = .ok () ∧
    (∀ s ∈ generate_doctor_appointment_slots startD endD startT endT dur,
      s ∉ (db.appointments.filter (fun a => a.healthprof == h.id)).map
            (fun a => a.appointment_date) →
      ∃ a ∈ (get_slots uid atype startD endD startT endT dur now nextId db).2.appointments,
        a.appointment_date = s ∧ a.state = "free" ∧ a.healthprof = h.id ∧
        a.patient = none) ∧
    (∀ s ∈ generate_doctor_appointment_slots startD endD startT endT dur,
      s ∈ (db.appointments.filter (fun a => a.healthprof == h.id)).map
            (fun a => a.appointment_date) →
      (get_slots uid atype startD endD startT endT dur now nextId db).2.appointments.filter
          (fun a => a.appointment_date == s) =
        db.appointments.filter (fun a => a.appointment_date == s)) := by
  have h1 : ¬ (endD * 1440 + endT < startD * 1440 + startT) := Nat.not_lt.mpr hval1
  have h2 : ¬ (startD * 1440 + startT < now) := Nat.not_lt.mpr hval2
  have h3 : ¬ (endD * 1440 + endT < now) := Nat.not_lt.mpr hval3
  have hgs : get_slots uid atype startD endD startT endT dur now nextId db =
      (let new_slots := generate_doctor_appointment_slots startD endD startT endT dur
       let existing := (db.appointments.filter
         (fun a => a.healthprof == h.id)).map (fun a => a.appointment_date)
       let unique_new := new_slots.filter (fun s => !(existing.contains s))
       if unique_new.isEmpty then (.ok (), db)
       else (.ok (), insert_appointments h.id atype unique_new nextId db)) := by
    simp [get_slots, h1, h2, h3, hreg, hp, hhp, hd]
  set new_slots := generate_doctor_appointment_slots startD endD startT endT dur
    with hns
  set existing := (db.appointments.filter
    (fun a => a.healthprof == h.id)).map (fun a => a.appointment_date) with hex
  set unique_new := new_slots.filter (fun s => !(existing.contains s)) with hun
  simp only at hgs
  by_cases hempty : unique_new.isEmpty
  · rw [if_pos hempty] at hgs
    have hall : ∀ s ∈ new_slots, s ∈ existing := by
      intro s hs
      by_contra hnot
      have : s ∈ unique_new := by
        rw [hun, List.mem_filter]
        exact ⟨hs, by simpa using hnot⟩
      rw [List.isEmpty_iff] at hempty
      rw [hempty] at this
      simp at this
    refine ⟨by rw [hgs], ?_, ?_⟩
    · intro s hs hnot
      exact absurd (hall s hs) hnot
    · intro s hs _
      rw [hgs]
  · rw [if_neg hempty] at hgs
    refine ⟨by rw [hgs], ?_, ?_⟩
    · intro s hs hnot
      have hmem : s ∈ unique_new := by
        rw [hun, List.mem_filter]
        exact ⟨hs, by simpa using hnot⟩
      obtain ⟨a, ha, hprops⟩ :=
        mkFreeRows_exists_row h.id atype unique_new nextId s hmem
      refine ⟨a, ?_, hprops⟩
      rw [hgs]
      exact List.mem_append_right _ ha
    · intro s hs hsin
      rw [hgs]
      show (db.appointments ++ mkFreeRows h.id atype nextId unique_new).filter
          (fun a => a.appointment_date == s) = _
      rw [List.filter_append]
      have hnil : (mkFreeRows h.id atype nextId unique_new).filter
          (fun a => a.appointment_date == s) = [] := by
        rw [List.filter_eq_nil_iff]
        intro a ha hpred
        have hdate : a.appointment_date ∈ unique_new :=
          mkFreeRows_date_mem h.id atype unique_new nextId a ha
        have heq : a.appointment_date = s := by simpa using hpred
        rw [heq] at hdate
        rw [hun, List.mem_filter] at hdate
        have := hdate.2
        simp [hsin] at this
      rw [hnil, List.append_nil]

/-- Concrete database for the C6 witness: professional 7 (user 10) already
has a free slot at minute 1980 (= day 1, 09:00). -/
def dbC6 : ApptDB :=
  { res_users := [10]
    parties := [⟨1, some 10, true⟩]
    patients := []
    healthprofs := [⟨7, 1⟩]
    appointments := [⟨5, 1980, "physical", 7, none, "free", none, none⟩] }

theorem C6_witness :
    ∃ a ∈ (get_slots 10 "physical" 1 1 540 600 30 0 100 dbC6).2.appointments,
      a.appointment_date = 2010 ∧ a.state = "free" ∧ a.healthprof = 7 ∧
      a.patient = none :=
  (C6_generated_slots_inserted_without_duplicates dbC6 10 "physical"
    1 1 540 600 30 0 100 ⟨1, some 10, true⟩ ⟨7, 1⟩
    (by decide) (by decide) (by decide) (by decide) (by decide) (by decide)
    (by decide)).2.1 2010 (by decide) (by decide)

/-- Concrete database for C8: doctor user 10 (party 1, professional 7) owns
confirmed appointment 5, which has prescription order 50 with one saved lab
test (id 70) and one saved medicine line (id 60, medicament 30); the single
medicament row has the given active component. -/
def dbC8 (comp : String) : PrescDB :=
  { parties := [⟨1, some 10, true⟩]
    healthprofs := [⟨7, 1⟩]
    appointments := [⟨5, 100, "telemedicine", 7, some 2, "confirmed", none, none⟩]
    prescription_orders :=
      [⟨50, 5, "APP 2024/5", "PRES 2024/5", some 2, 7, 7, none, none, 7, none, none, 7⟩]
    prescription_lines := [⟨60, 50, 30⟩]
    patient_lab_tests := [⟨70, 50, 20, none⟩]
    lab_test_types := [⟨20, some "CBC", "TEST_X"⟩]
    lab_test_criteareas := []
    medicaments := [⟨30, 9, comp⟩]
    med_parties := []
    patient_evaluations := [] }

/-- C8 counterexample: a prescription-save call with empty test and medicine
payloads does NOT leave zero medicine lines behind.  When the saved line
references the "Default Medicine" medicament it survives the delete, and
when no "Default Medicine" medicament exists at all the delete removes
nothing (`medicament != NULL` matches no row); the saved lab tests are
deleted in both scenarios. -/
theorem C8_counterexample :
    (save_prescription 5 10 2025 99 1000 ⟨none, some [], some [], none⟩
        (dbC8 "Default Medicine")).2.prescription_lines = [⟨60, 50, 30⟩] ∧
    (save_prescription 5 10 2025 99 1000 ⟨none, some [], some [], none⟩
        (dbC8 "Paracetamol")).2.prescription_lines = [⟨60, 50, 30⟩] ∧
    (save_prescription 5 10 2025 99 1000 ⟨none, some [], some [], none⟩
        (dbC8 "Default Medicine")).2.patient_lab_tests = [] := by
  decide

/-- C8 (amended): a prescription-save call by the authorized doctor with
empty test and medicine payloads succeeds, deletes every previously saved
lab-test entry of the prescription, and deletes the previously saved
medicine lines with this exception: when exactly one "Default Medicine"
medicament exists, lines referencing it are kept; when no such medicament
exists, no medicine line is deleted at all (SQL `!=` against a NULL
subquery). -/
theorem C8_amended_empty_payload_replace_semantics
    (db : PrescDB) (aid uid year now fresh : Nat)
    (appt : Appointment) (hprof : HealthProf) (hparty : Party)
    (order : PrescriptionOrder)
    (h1 : db.appointments.find? (fun a => a.id == aid) = some appt)
    (h2 : db.healthprofs.find? (fun x => x.id == appt.healthprof) = some hprof)
    (h3 : db.parties.find? (fun x => x.id == hprof.name) = some hparty)
    (h4 : hparty.internal_user = some uid)
    (h5 : appt.state = "confirmed")
    (h6 : db.prescription_orders.find? (fun o => o.appointment_id == aid)
            = some order)
    (hds : (db.medicaments.filter
      (fun m => m.active_component == "Default Medicine")).length ≤ 1) :
    ((save_prescription aid uid year now fresh
        ⟨none, some [], some [], none⟩ db).1 = .ok () ∧
     (save_prescription aid uid year now fresh
        ⟨none, some [], some [], none⟩ db).2.patient_lab_tests =
       db.patient_lab_tests.filter (fun t => !(t.prescription == order.id))) ∧
    (db.medicaments.filter (fun m => m.active_component == "Default Medicine") = [] →
      (save_prescription aid uid year now fresh
        ⟨none, some [], some [], none⟩ db).2.prescription_lines =
        db.prescription_lines) ∧
    (∀ d, db.medicaments.filter
        (fun m => m.active_component == "Default Medicine") = [d] →
      (save_prescription aid uid year now fresh
        ⟨none, some [], some [], none⟩ db).2.prescription_lines =
        db.prescription_lines.filter (fun l =>
          !(l.name == order.id && l.medicament != d.id))) := by
  have h4' : (hparty.internal_user != some uid) = false := by simp [h4]
  have h5' : (appt.state != "confirmed") = false := by simp [h5]
  cases hm : db.medicaments.filter
      (fun m => m.active_component == "Default Medicine") with
  | nil =>
    refine ⟨⟨?_, ?_⟩, ?_, ?_⟩ <;>
      simp [save_prescription, save_prescription_body, applyTestsMeds,
        h1, h2, h3, h4', h5', h6, hm]
  | cons d tail =>
    cases tail with
    | nil =>
      refine ⟨⟨?_, ?_⟩, ?_, ?_⟩
      · simp [save_prescription, save_prescription_body, applyTestsMeds,
          h1, h2, h3, h4', h5', h6, hm]
      · simp [save_prescription, save_prescription_body, applyTestsMeds,
          h1, h2, h3, h4', h5', h6, hm]
      · intro hnil
        simp at hnil
      · intro d' hd'
        have hdd : d = d' := by
          exact ((List.cons.injEq _ _ _ _).mp hd').1
        subst hdd
        simp [save_prescription, save_prescription_body, applyTestsMeds,
          h1, h2, h3, h4', h5', h6, hm]
    | cons d2 tl =>
      exfalso
      rw [hm] at hds
      simp at hds

theorem C8_witness :
    (save_prescription 5 10 2025 99 1000 ⟨none, some [], some [], none⟩
        (dbC8 "Default Medicine")).2.prescription_lines =
      (dbC8 "Default Medicine").prescription_lines.filter (fun l =>
        !(l.name == 50 && l.medicament != 30)) :=
  (C8_amended_empty_payload_replace_semantics (dbC8 "Default Medicine")
    5 10 2025 99 1000
    ⟨5, 100, "telemedicine", 7, some 2, "confirmed", none, none⟩ ⟨7, 1⟩
    ⟨1, some 10, true⟩
    ⟨50, 5, "APP 2024/5", "PRES 2024/5", some 2, 7, 7, none, none, 7, none, none, 7⟩
    (by decide) (by decide) (by decide) (by decide) (by decide) (by decide)
    (by decide)).2.2 ⟨30, 9, "Default Medicine"⟩ (by decide)

/-- The slot loop ignores any sufficient amount of fuel (for a positive
step). -/
lemma slotLoop_congr (stop dur : Nat) (hdur : 0 < dur) :
    ∀ fuel₁, ∀ fuel₂ t, stop - t ≤ fuel₁ → stop - t ≤ fuel₂ →
      slotLoop fuel₁ t stop dur = slotLoop fuel₂ t stop dur := by
  intro fuel₁
  induction fuel₁ with
  | zero =>
    intro fuel₂ t h₁ h₂
    have hts : ¬ t < stop := by omega
    cases fuel₂ with
    | zero => rfl
    | succ n => simp [slotLoop, hts]
  | succ n ih =>
    intro fuel₂ t h₁ h₂
    cases fuel₂ with
    | zero =>
      have hts : ¬ t < stop := by omega
      simp [slotLoop, hts]
    | succ k =>
      by_cases hts : t < stop
      · simp only [slotLoop, hts, if_true]
        rw [ih k (t + dur) (by omega) (by omega)]
      · simp [slotLoop, hts]

/-- Unfolding step of the enumeration when the cursor is inside the
window. -/
lemma enumSlots_cons (t stop dur : Nat) (hdur : 0 < dur) (h : t < stop) :
    enumSlots t stop dur = t :: enumSlots (t + dur) stop dur := by
  obtain ⟨k, hk⟩ : ∃ k, stop - t = k + 1 := ⟨stop - t - 1, by omega⟩
  unfold enumSlots
  rw [hk]
  simp only [slotLoop, h, if_true]
  rw [slotLoop_congr stop dur hdur k (stop - (t + dur)) (t + dur)
    (by omega) (by omega)]

/-- The enumeration is empty when the cursor starts at or past the end. -/
lemma enumSlots_nil (t stop dur : Nat) (h : ¬ t < stop) :
    enumSlots t stop dur = [] := by
  unfold enumSlots
  rw [Nat.sub_eq_zero_of_le (by omega)]
  rfl

/-- Every enumerated slot lies in the half-open window. -/
lemma mem_slotLoop_bounds (stop dur : Nat) :
    ∀ fuel t x, x ∈ slotLoop fuel t stop dur → t ≤ x ∧ x < stop := by
  intro fuel
  induction fuel with
  | zero => intro t x hx; simp [slotLoop] at hx
  | succ n ih =>
    intro t x hx
    by_cases hts : t < stop
    · simp only [slotLoop, hts, if_true] at hx
      rcases List.mem_cons.mp hx with rfl | hx'
      · exact ⟨Nat.le_refl _, hts⟩
      · have := ih (t + dur) x hx'
        omega
    · simp [slotLoop, hts] at hx

/-- Every enumerated slot lies in the half-open window. -/
lemma mem_enumSlots_bounds (t stop dur x : Nat)
    (hx : x ∈ enumSlots t stop dur) : t ≤ x ∧ x < stop :=
  mem_slotLoop_bounds stop dur _ t x hx

/-- Gluing two enumerations at a cut the step divides into. -/
lemma enumSlots_append (dur : Nat) (hdur : 0 < dur) :
    ∀ n t mid stop, mid - t ≤ n → t ≤ mid → mid ≤ stop → dur ∣ (mid - t) →
      enumSlots t mid dur ++ enumSlots mid stop dur = enumSlots t stop dur := by
  intro n
  induction n with
  | zero =>
    intro t mid stop hn hts hms _
    have : mid = t := by omega
    subst this
    rw [enumSlots_nil mid mid dur (by omega), List.nil_append]
  | succ n ih =>
    intro t mid stop hn hts hms hdvd
    by_cases h : t < mid
    · have hdle : dur ≤ mid - t := Nat.le_of_dvd (by omega) hdvd
      rw [enumSlots_cons t mid dur hdur h,
        enumSlots_cons t stop dur hdur (by omega), List.cons_append]
      congr 1
      have hsub : mid - (t + dur) = (mid - t) - dur := by omega
      exact ih (t + dur) mid stop (by omega) (by omega) hms
        (by rw [hsub]; exact Nat.dvd_sub' hdvd dvd_rfl)
    · have : mid = t := by omega
      subst this
      rw [enumSlots_nil mid mid dur (by omega), List.nil_append]

/-- The slot loop yields either nothing or its cursor as head. -/
lemma slotLoop_head (stop dur : Nat) (fuel t : Nat) :
    slotLoop fuel t stop dur = [] ∨
    ∃ rest, slotLoop fuel t stop dur = t :: rest := by
  cases fuel with
  | zero => exact Or.inl rfl
  | succ n =>
    by_cases h : t < stop
    · exact Or.inr ⟨slotLoop n (t + dur) stop dur, by simp [slotLoop, h]⟩
    · exact Or.inl (by simp [slotLoop, h])

/-- Consecutive enumerated slots differ by exactly the step. -/
lemma chain_slotLoop (stop dur : Nat) :
    ∀ fuel t, List.Chain' (fun a b => b = a + dur) (slotLoop fuel t stop dur) := by
  intro fuel
  induction fuel with
  | zero => intro t; simp [slotLoop]
  | succ n ih =>
    intro t
    by_cases h : t < stop
    · simp only [slotLoop, h, if_true]
      rw [List.chain'_cons']
      refine ⟨?_, ih (t + dur)⟩
      intro y hy
      rcases slotLoop_head stop dur n (t + dur) with hnil | ⟨rest, hcons⟩
      · rw [hnil] at hy; simp at hy
      · rw [hcons] at hy; simp at hy; omega
    · simp [slotLoop, h]

/-- Consecutive enumerated slots differ by exactly the step. -/
lemma chain_enumSlots (t stop dur : Nat) :
    List.Chain' (fun a b => b = a + dur) (enumSlots t stop dur) :=
  chain_slotLoop stop dur _ t

/-- The enumeration has no duplicates (positive step). -/
lemma nodup_enumSlots (t stop dur : Nat) (hdur : 0 < dur) :
    (enumSlots t stop dur).Nodup := by
  have hlt : List.Chain' (fun a b : Nat => a < b) (enumSlots t stop dur) :=
    (chain_enumSlots t stop dur).imp (fun h => by omega)
  have hpw := List.chain'_iff_pairwise.mp hlt
  exact hpw.imp Nat.ne_of_lt

/-- Filtering distributes over the daily concatenation. -/
lemma filter_flatMap {α β : Type} (l : List α) (f : α → List β) (p : β → Bool) :
    (l.flatMap f).filter p = l.flatMap fun a => (f a).filter p := by
  induction l with
  | nil => rfl
  | cons a l ih => simp [List.flatMap_cons, List.filter_append, ih]

/-- A concatenation of empties is empty. -/
lemma flatMap_nil_of {α β : Type} (l : List α) (f : α → List β)
    (h : ∀ a ∈ l, f a = []) : l.flatMap f = [] := by
  induction l with
  | nil => rfl
  | cons a l ih =>
    rw [List.flatMap_cons, h a (List.mem_cons_self _ _),
      ih (fun x hx => h x (List.mem_cons_of_mem _ hx)), List.nil_append]

/-- C5 counterexample: for midnight-spanning windows the claim fails twice.
(1) A single-day request (start day = end day) with window 23:00–01:00 and
duration 30 generates only 23:00 and 23:30 — every slot lies on the start
day, none on the following day.  (2) With duration 45 (which does not
divide the 60 minutes from 23:00 to midnight) the slots around the first
midnight boundary are 23:00, 23:45, 00:00, 00:45: the boundary interval is
15 minutes, not the requested duration. -/
theorem C5_counterexample :
    (generate_doctor_appointment_slots 0 0 1380 60 30 = [1380, 1410] ∧
     ∀ x ∈ generate_doctor_appointment_slots 0 0 1380 60 30, x / 1440 = 0) ∧
    (generate_doctor_appointment_slots 0 1 1380 60 45).filter
        (fun s => s < 1500) = [1380, 1425, 1440, 1485] ∧
    ¬ List.Chain' (fun a b => b = a + 45) [1380, 1425, 1440, 1485] := by
  refine ⟨by decide, by decide, ?_⟩
  intro h
  simp only [List.chain'_cons, List.chain'_singleton, and_true] at h
  omega

/-- C5 (amended): for a midnight-spanning daily window (start time after end
time, positive end time) over a range of at least two days, with a duration
that divides the span from the window start to midnight, the slots of the
first window — those before the first day's window end — form exactly one
uninterrupted enumeration across midnight: they contain a slot on the start
day and a slot on the following day, consecutive start-times differ by
exactly the duration (hence no gap at the boundary), and there are no
duplicates. -/
theorem C5_amended_midnight_boundary
    (startD endD startT endT dur : Nat)
    (hspan : endT < startT) (hst : startT < 1440) (hend : 0 < endT)
    (hdays : startD < endD) (hdur : 0 < dur)
    (hdvd : dur ∣ (1440 - startT)) :
    (generate_doctor_appointment_slots startD endD startT endT dur).filter
        (fun s => s < (startD + 1) * 1440 + endT) =
      enumSlots (startD * 1440 + startT) ((startD + 1) * 1440 + endT) dur ∧
    (∃ x ∈ (generate_doctor_appointment_slots startD endD startT endT dur).filter
        (fun s => s < (startD + 1) * 1440 + endT), x / 1440 = startD) ∧
    (∃ x ∈ (generate_doctor_appointment_slots startD endD startT endT dur).filter
        (fun s => s < (startD + 1) * 1440 + endT), x / 1440 = startD + 1) ∧
    List.Chain' (fun a b => b = a + dur)
      ((generate_doctor_appointment_slots startD endD startT endT dur).filter
        (fun s => s < (startD + 1) * 1440 + endT)) ∧
    ((generate_doctor_appointment_slots startD endD startT endT dur).filter
        (fun s => s < (startD + 1) * 1440 + endT)).Nodup := by
  have hnspan : ¬ startT < endT := by omega
  have hlastF : (startD + 0 == endD) = false := by
    simp; omega
  -- the first day of the range generates the whole first window
  have hday0 : genDoctorDaySlots (startD + 0) startT endT dur (startD + 0 == endD) =
      enumSlots (startD * 1440 + startT) ((startD + 1) * 1440) dur ++
        enumSlots ((startD + 1) * 1440) ((startD + 1) * 1440 + endT) dur := by
    rw [hlastF]
    simp only [genDoctorDaySlots, hnspan, if_false, Bool.not_false, if_true,
      Nat.add_zero]
  -- all of its slots are below the first window end
  have hday0_filter :
      (genDoctorDaySlots (startD + 0) startT endT dur (startD + 0 == endD)).filter
        (fun s => s < (startD + 1) * 1440 + endT) =
      genDoctorDaySlots (startD + 0) startT endT dur (startD + 0 == endD) := by
    rw [List.filter_eq_self]
    intro a ha
    rw [hday0] at ha
    rcases List.mem_append.mp ha with h | h
    · have := mem_enumSlots_bounds _ _ _ _ h
      simp only [decide_eq_true_eq]
      omega
    · have := mem_enumSlots_bounds _ _ _ _ h
      simp only [decide_eq_true_eq]
      omega
  -- every later day of the range generates only slots at or past that end
  have hlater : ∀ i, 1 ≤ i →
      (genDoctorDaySlots (startD + i) startT endT dur (startD + i == endD)).filter
        (fun s => s < (startD + 1) * 1440 + endT) = [] := by
    intro i hi
    rw [List.filter_eq_nil_iff]
    intro a ha
    simp only [genDoctorDaySlots, hnspan, if_false] at ha
    rcases List.mem_append.mp ha with h | h
    · have := mem_enumSlots_bounds _ _ _ _ h
      simp only [decide_eq_true_eq]
      omega
    · rcases hsplit : (!(startD + i == endD) : Bool) with _ | _
      · rw [hsplit] at h
        simp at h
      · rw [hsplit] at h
        simp only [if_true] at h
        have := mem_enumSlots_bounds _ _ _ _ h
        simp only [decide_eq_true_eq]
        omega
  -- assemble: the filtered output is the first day's generation
  have hk : endD + 1 - startD = (endD - startD - 1) + 2 := by omega
  have hmain :
      (generate_doctor_appointment_slots startD endD startT endT dur).filter
        (fun s => s < (startD + 1) * 1440 + endT) =
      enumSlots (startD * 1440 + startT) ((startD + 1) * 1440) dur ++
        enumSlots ((startD + 1) * 1440) ((startD + 1) * 1440 + endT) dur := by
    unfold generate_doctor_appointment_slots
    rw [filter_flatMap, hk, List.range_succ_eq_map, List.flatMap_cons]
    rw [flatMap_nil_of _ _ ?later]
    case later =>
      intro a hamem
      rw [List.mem_map] at hamem
      obtain ⟨j, _, rfl⟩ := hamem
      exact hlater (j + 1) (by omega)
    rw [List.append_nil, hday0_filter, hday0]
  have hjoin :
      enumSlots (startD * 1440 + startT) ((startD + 1) * 1440) dur ++
        enumSlots ((startD + 1) * 1440) ((startD + 1) * 1440 + endT) dur =
      enumSlots (startD * 1440 + startT) ((startD + 1) * 1440 + endT) dur := by
    apply enumSlots_append dur hdur ((startD + 1) * 1440 - (startD * 1440 + startT))
    · omega
    · omega
    · omega
    · have : (startD + 1) * 1440 - (startD * 1440 + startT) = 1440 - startT := by
        omega
      rw [this]
      exact hdvd
  refine ⟨hmain.trans hjoin, ?_, ?_, ?_, ?_⟩
  · refine ⟨startD * 1440 + startT, ?_, ?_⟩
    · rw [hmain]
      apply List.mem_append_left
      rw [enumSlots_cons _ _ _ hdur (by omega)]
      exact List.mem_cons_self _ _
    · omega
  · refine ⟨(startD + 1) * 1440, ?_, ?_⟩
    · rw [hmain]
      apply List.mem_append_right
      rw [enumSlots_cons _ _ _ hdur (by omega)]
      exact List.mem_cons_self _ _
    · omega
  · rw [hmain.trans hjoin]
    exact chain_enumSlots _ _ _
  · rw [hmain.trans hjoin]
    exact nodup_enumSlots _ _ _ hdur

theorem C5_witness :
    (generate_doctor_appointment_slots 0 1 1380 60 30).filter
        (fun s => s < 1500) = enumSlots 1380 1500 30 ∧
    (∃ x ∈ (generate_doctor_appointment_slots 0 1 1380 60 30).filter
        (fun s => s < 1500), x / 1440 = 0) ∧
    (∃ x ∈ (generate_doctor_appointment_slots 0 1 1380 60 30).filter
        (fun s => s < 1500), x / 1440 = 1) :=
  have h := C5_amended_midnight_boundary 0 1 1380 60 30
    (by decide) (by decide) (by decide) (by decide) (by decide) (by decide)
  ⟨h.1, h.2.1, h.2.2.1⟩

/-- A map that keeps the product column commutes with lookup by product. -/
lemma find?_map_preserve (f : StockLot → StockLot)
    (hf : ∀ l, (f l).product = l.product) (lots : List StockLot) (p : Nat) :
    (lots.map f).find? (fun l => l.product == p) =
      (lots.find? (fun l => l.product == p)).map f := by
  induction lots with
  | nil => rfl
  | cons a rest ih =>
    by_cases h : a.product == p
    · simp [List.find?_cons, hf a, h]
    · simp [List.find?_cons, hf a, h, ih]

/-- When every line has a stock row with enough quantity, the check loop
passes. -/
lemma checkStock_eq_none (lots : List StockLot) (items : List OrderItem)
    (h : ∀ it ∈ items, ∃ lot,
      lots.find? (fun l => l.product == it.product_id) = some lot ∧
      it.quantity ≤ lot.number.getD 0) :
    checkStock lots items = none := by
  induction items with
  | nil => rfl
  | cons it rest ih =>
    obtain ⟨lot, hlot, hle⟩ := h it (List.mem_cons_self _ _)
    have hnlt : ¬ (lot.number.getD 0 < it.quantity) := by omega
    simp only [checkStock, hlot, hnlt, if_false]
    exact ih fun x hx => h x (List.mem_cons_of_mem _ hx)

/-- Total quantity the order lines request for product `p`; lines sharing a
product accumulate, matching the deduction loop, which re-reads the row
inside the transaction and subtracts each line quantity in turn. -/
def orderedQty (p : Nat) (items : List OrderItem) : Int :=
  ((items.filter (fun it => it.product_id == p)).map (fun it => it.quantity)).sum

lemma orderedQty_cons_eq (p : Nat) (it : OrderItem) (rest : List OrderItem)
    (h : it.product_id = p) :
    orderedQty p (it :: rest) = it.quantity + orderedQty p rest := by
  simp [orderedQty, List.filter_cons, h]

lemma orderedQty_cons_ne (p : Nat) (it : OrderItem) (rest : List OrderItem)
    (h : ¬ it.product_id = p) :
    orderedQty p (it :: rest) = orderedQty p rest := by
  simp [orderedQty, List.filter_cons, h]

lemma orderedQty_eq_zero (p : Nat) (items : List OrderItem)
    (h : ∀ it ∈ items, ¬ p = it.product_id) :
    orderedQty p items = 0 := by
  have hnil : items.filter (fun it => it.product_id == p) = [] := by
    rw [List.filter_eq_nil_iff]
    intro it hit
    simp only [beq_iff_eq]
    exact fun hc => h it hit hc.symm
  simp [orderedQty, hnil]

/-- Behaviour of the deduction loop for an arbitrary order: stock rows have
pairwise distinct ids (a primary key) and each line has a stock row.  The
loop succeeds; each product addressed by some line ends with its first
stock row's number decreased by the total quantity its lines request —
each line's quantity subtracted exactly once, lines sharing a product
accumulating through the in-transaction re-read — with a refreshed write
date; rows of products no line addresses are looked up unchanged. -/
lemma deductStock_spec (now : Nat) :
    ∀ (items : List OrderItem) (lots : List StockLot),
      (lots.map (fun l => l.id)).Nodup →
      (∀ it ∈ items, ∃ lot,
        lots.find? (fun l => l.product == it.product_id) = some lot) →
      ∃ lots', deductStock now lots items = some lots' ∧
        (∀ p : Nat, (∃ it ∈ items, p = it.product_id) →
          ∀ lot, lots.find? (fun l => l.product == p) = some lot →
          lots'.find? (fun l => l.product == p) =
            some { lot with number := some (lot.number.getD 0 - orderedQty p items),
                            write_date := some now }) ∧
        (∀ p : Nat, (∀ it ∈ items, p ≠ it.product_id) →
          lots'.find? (fun l => l.product == p) =
            lots.find? (fun l => l.product == p)) := by
  intro items
  induction items with
  | nil =>
    intro lots _ _
    refine ⟨lots, rfl, ?_, fun p _ => rfl⟩
    intro p hp
    simp at hp
  | cons it rest ih =>
    intro lots hids hfind
    obtain ⟨lot₀, hlot⟩ := hfind it (List.mem_cons_self _ _)
    have hlotmem : lot₀ ∈ lots := List.mem_of_find?_eq_some hlot
    have hlotprod : lot₀.product = it.product_id := by
      have := List.find?_some hlot
      simpa using this
    set f : StockLot → StockLot := fun l =>
      if l.id == lot₀.id then
        { l with number := some (lot₀.number.getD 0 - it.quantity),
                 write_date := some now }
      else l with hfdef
    have hf_prod : ∀ l, (f l).product = l.product := by
      intro l
      simp only [hfdef]
      split <;> rfl
    have hf_id : ∀ l, (f l).id = l.id := by
      intro l
      simp only [hfdef]
      split <;> rfl
    have hinj : ∀ x ∈ lots, ∀ y ∈ lots, x.id = y.id → x = y := by
      intro x hx y hy hxy
      exact List.inj_on_of_nodup_map hids hx hy hxy
    have hids₁ : ((lots.map f).map (fun l => l.id)).Nodup := by
      rw [List.map_map]
      have : lots.map ((fun l => l.id) ∘ f) = lots.map (fun l => l.id) :=
        List.map_congr_left fun l _ => hf_id l
      rw [this]
      exact hids
    have hfind₁ : ∀ it' ∈ rest, ∃ lot',
        (lots.map f).find? (fun l => l.product == it'.product_id) = some lot' := by
      intro it' hit'
      obtain ⟨lot', hlot'⟩ := hfind it' (List.mem_cons_of_mem _ hit')
      exact ⟨f lot', by rw [find?_map_preserve f hf_prod, hlot']; rfl⟩
    obtain ⟨lots', hded, hc_ord, hc_un⟩ := ih (lots.map f) hids₁ hfind₁
    have hstep : deductStock now lots (it :: rest) = some lots' := by
      simpa [deductStock, hlot, hfdef] using hded
    refine ⟨lots', hstep, ?_, ?_⟩
    · -- products some line addresses
      intro p hpex lot hfound
      by_cases hcase : it.product_id = p
      · -- the head line addresses p, so the found row is the one f updates
        have heq : lot₀ = lot := by
          rw [hcase] at hlot
          rw [hfound] at hlot
          exact ((Option.some.injEq _ _).mp hlot).symm
        subst heq
        have hfound₁ : (lots.map f).find? (fun l => l.product == p) =
            some ({ lot₀ with number := some (lot₀.number.getD 0 - it.quantity),
                              write_date := some now }) := by
          rw [find?_map_preserve f hf_prod, hfound]
          simp [hfdef]
        by_cases hrest : ∃ it' ∈ rest, p = it'.product_id
        · have hres := hc_ord p hrest _ hfound₁
          rw [hres, orderedQty_cons_eq p it rest hcase]
          have harith : lot₀.number.getD 0 - it.quantity - orderedQty p rest =
              lot₀.number.getD 0 - (it.quantity + orderedQty p rest) := by
            omega
          simp [harith]
        · have hnone : ∀ it'' ∈ rest, p ≠ it''.product_id :=
            fun it'' h'' hpe => hrest ⟨it'', h'', hpe⟩
          have hun := hc_un p hnone
          rw [hun, hfound₁, orderedQty_cons_eq p it rest hcase,
            orderedQty_eq_zero p rest hnone]
          simp
      · -- the head line does not address p; some later line does
        have hrest : ∃ it' ∈ rest, p = it'.product_id := by
          rcases hpex with ⟨it'', hmem, hpe⟩
          rcases List.mem_cons.mp hmem with rfl | hr
          · exact absurd hpe.symm hcase
          · exact ⟨it'', hr, hpe⟩
        have hfound₁ : (lots.map f).find? (fun l => l.product == p) =
            some (f lot) := by
          rw [find?_map_preserve f hf_prod, hfound]
          rfl
        have hprodlot : lot.product = p := by
          have := List.find?_some hfound
          simpa using this
        have hne : lot ≠ lot₀ := by
          intro hcontra
          apply hcase
          rw [← hlotprod, ← hcontra]
          exact hprodlot
        have hidne : (lot.id == lot₀.id) = false := by
          rw [beq_eq_false_iff_ne]
          intro hcontra
          exact hne (hinj lot (List.mem_of_find?_eq_some hfound) lot₀ hlotmem
            hcontra)
        have hfix : f lot = lot := by
          simp only [hfdef]
          rw [hidne]
          simp
        rw [hfix] at hfound₁
        have := hc_ord p hrest lot hfound₁
        rw [this, orderedQty_cons_ne p it rest hcase]
    · -- products no line addresses
      intro p hp
      have h1 := hc_un p (fun it'' h'' => hp it'' (List.mem_cons_of_mem _ h''))
      rw [h1, find?_map_preserve f hf_prod]
      cases hcase : lots.find? (fun l => l.product == p) with
      | none => rfl
      | some r =>
        have hrprod : r.product = p := by
          have := List.find?_some hcase
          simpa using this
        have hne : r ≠ lot₀ := by
          intro hcontra
          apply hp it (List.mem_cons_self _ _)
          rw [← hlotprod, ← hcontra]
          exact hrprod.symm
        have hidne : (r.id == lot₀.id) = false := by
          rw [beq_eq_false_iff_ne]
          intro hcontra
          exact hne (hinj r (List.mem_of_find?_eq_some hcase) lot₀ hlotmem
            hcontra)
        have : f r = r := by
          simp only [hfdef]
          rw [hidne]
          simp
        simp [this]

/-- C3: completing an order whose lines all pass the per-line availability
check succeeds with exactly one commit whose state carries both the status
update and every deduction.  The loop subtracts each line's exact quantity
from the first stock row of its product, lines sharing a product
accumulating through the in-transaction re-read, so the row of each ordered
product ends with `number` decreased by the total quantity its lines
request (a single line's quantity when products are distinct), with a
refreshed write date; rows of products no line addresses are looked up
unchanged, and the order's status becomes "completed".  Stock rows are
assumed to have pairwise distinct ids (the table's primary key). -/
theorem C3_sufficient_stock_commits_once
    (db : OrderDB) (oid now : Nat) (o : Order)
    (ho : db.orders.find? (fun x => x.id == oid) = some o)
    (hnc : o.status ≠ "completed")
    (hids : (db.stock_lots.map (fun l => l.id)).Nodup)
    (havail : ∀ it ∈ db.order_items.filter (fun it => it.order_id == oid),
      ∃ lot, db.stock_lots.find? (fun l => l.product == it.product_id) = some lot ∧
        it.quantity ≤ lot.number.getD 0) :
    ∃ lots',
      update_order_status oid "completed" now db =
        (.ok (),
         { orders := db.orders.map (fun x : Order =>
             if x.id == oid then { x with status := "completed" } else x)
           order_items := db.order_items
           stock_lots := lots' }, 1) ∧
      (∀ it ∈ db.order_items.filter (fun it => it.order_id == oid),
        ∀ lot, db.stock_lots.find? (fun l => l.product == it.product_id) = some lot →
          lots'.find? (fun l => l.product == it.product_id) =
            some { lot with number := some (lot.number.getD 0 -
                     orderedQty it.product_id
                       (db.order_items.filter (fun it => it.order_id == oid))),
                            write_date := some now }) ∧
      (∀ p : Nat, (∀ it ∈ db.order_items.filter (fun it => it.order_id == oid),
          p ≠ it.product_id) →
        lots'.find? (fun l => l.product == p) =
          db.stock_lots.find? (fun l => l.product == p)) := by
  have hchk : checkStock db.stock_lots
      (db.order_items.filter (fun it => it.order_id == oid)) = none :=
    checkStock_eq_none _ _ havail
  obtain ⟨lots', hded, hc_ord, hc_un⟩ := deductStock_spec now
    (db.order_items.filter (fun it => it.order_id == oid)) db.stock_lots
    hids (fun it h => (havail it h).imp fun lot hl => hl.1)
  refine ⟨lots', ?_, ?_, hc_un⟩
  · have hval : "completed" ∈ VALID_STATUSES := by decide
    simp [update_order_status, ho, hnc, hchk, hded, hval]
  · intro it hmem lot hfound
    exact hc_ord it.product_id ⟨it, hmem, rfl⟩ lot hfound

/-- Concrete database for the C3 witness: order 1 is pending with three
lines, two of which address the same product (3 and 2 of product 4, 2 of
product 6), all passing the per-line check against the original stock. -/
def dbC3 : OrderDB :=
  { orders := [⟨1, "pending"⟩]
    order_items := [⟨1, 4, 3⟩, ⟨1, 4, 2⟩, ⟨1, 6, 2⟩]
    stock_lots := [⟨8, 4, some 10, none⟩, ⟨9, 6, some 5, none⟩] }

theorem C3_witness :
    ∃ lots',
      update_order_status 1 "completed" 42 dbC3 =
        (.ok (),
         { orders := dbC3.orders.map (fun x : Order =>
             if x.id == 1 then { x with status := "completed" } else x)
           order_items := dbC3.order_items
           stock_lots := lots' }, 1) ∧
      (∀ it ∈ dbC3.order_items.filter (fun it => it.order_id == 1),
        ∀ lot, dbC3.stock_lots.find? (fun l => l.product == it.product_id) = some lot →
          lots'.find? (fun l => l.product == it.product_id) =
            some { lot with number := some (lot.number.getD 0 -
                     orderedQty it.product_id
                       (dbC3.order_items.filter (fun it => it.order_id == 1))),
                            write_date := some 42 }) ∧
      (∀ p : Nat, (∀ it ∈ dbC3.order_items.filter (fun it => it.order_id == 1),
          p ≠ it.product_id) →
        lots'.find? (fun l => l.product == p) =
          dbC3.stock_lots.find? (fun l => l.product == p)) :=
  C3_sufficient_stock_commits_once dbC3 1 42 ⟨1, "pending"⟩
    (by decide) (by decide) (by decide) (by decide)

end GnuHealth
